import Mathlib

/-!
Verification development for the tiny-http server (Go).

The definitions below are a shallow embedding of the request-processing
path of the server: the request parser, the router, the middleware
pipeline, the file-serving handler and one iteration of the connection
handler.  Pure Go helpers are translated into Lean functions; the
filesystem, the system MIME lookup and the gzip codec are external
collaborators and enter as explicit function parameters.  Byte sequences
on the wire are modelled as lists of characters (the server treats them
as raw bytes), response bodies as lists of naturals.
-/

set_option maxRecDepth 10000

/-- Characters treated as whitespace by the Go unicode.IsSpace test, as
used by strings.TrimSpace (restricted to the Latin-1 range). -/
def goIsSpace (c : Char) : Bool :=
  c = ' ' || c = '\t' || c = '\n' || c = Char.ofNat 0x0B || c = Char.ofNat 0x0C ||
  c = '\r' || c = Char.ofNat 0x85 || c = Char.ofNat 0xA0

/-- Trim whitespace from both ends of a character list (strings.TrimSpace). -/
def trimSpaceList (l : List Char) : List Char :=
  ((l.dropWhile goIsSpace).reverse.dropWhile goIsSpace).reverse

/-- strings.TrimSpace on strings. -/
def goTrimSpace (s : String) : String :=
  String.mk (trimSpaceList s.data)

/-- Boolean test that one character list begins with another. -/
def listIsPref : List Char → List Char → Bool
  | [], _ => true
  | _ :: _, [] => false
  | a :: as, b :: bs => a = b && listIsPref as bs

/-- Boolean substring test on character lists. -/
def listContainsSeq (needle : List Char) : List Char → Bool
  | [] => needle.isEmpty
  | c :: rest => listIsPref needle (c :: rest) || listContainsSeq needle rest

/-- strings.Contains: does s contain sub as a substring. -/
def goContains (s sub : String) : Bool :=
  listContainsSeq sub.data s.data

/-- strings.HasPrefix. -/
def goStartsWith (s pre : String) : Bool :=
  listIsPref pre.data s.data

/-- strings.HasSuffix. -/
def goEndsWith (s suf : String) : Bool :=
  listIsPref suf.data.reverse s.data.reverse

/-- ASCII lower-casing of a string (strings.ToLower restricted to the ASCII
range; all inputs of interest, file extensions, are ASCII). -/
def asciiLower (s : String) : String :=
  String.mk (s.data.map (fun c => if 'A' ≤ c && c ≤ 'Z' then Char.ofNat (c.toNat + 32) else c))

/-- Go map modelled as an association list with unique keys: insert
overwrites an existing binding in place, otherwise appends. -/
def mapInsert {α : Type} : List (String × α) → String → α → List (String × α)
  | [], k, v => [(k, v)]
  | (k0, v0) :: t, k, v => if k0 = k then (k, v) :: t else (k0, v0) :: mapInsert t k v

/-- Lookup in a Go map, returning an Option. -/
def mapGetQ {α : Type} (m : List (String × α)) (k : String) : Option α :=
  (m.find? (fun p => p.1 = k)).map Prod.snd

/-- Indexing a Go map of strings: a missing key yields the empty string. -/
def mapGet (m : List (String × String)) (k : String) : String :=
  (mapGetQ m k).getD ""

/-- Bytes of an ASCII string, as the Go conversion []byte(s). -/
def strBytes (s : String) : List Nat :=
  s.data.map Char.toNat

/-- bufio Reader.ReadString with delimiter the newline: returns the data up
to and including the first newline together with the remaining stream, or
nothing when the stream ends first (the Go code treats that error case as a
failed read and never uses the partial data). -/
def readLine : List Char → Option (List Char × List Char)
  | [] => none
  | c :: rest =>
    if c = '\n' then some ([c], rest)
    else
      match readLine rest with
      | some (l, r) => some (c :: l, r)
      | none => none

/-- strings.TrimRight with cutset carriage-return / newline. -/
def trimRightCRLF (l : List Char) : List Char :=
  (l.reverse.dropWhile (fun c => c = '\r' || c = '\n')).reverse

/-- strings.Split on a single separator character: empty fields are kept,
and the empty input yields one empty field. -/
def splitChar (sep : Char) : List Char → List (List Char)
  | [] => [[]]
  | c :: rest =>
    if c = sep then [] :: splitChar sep rest
    else
      match splitChar sep rest with
      | [] => [[c]]
      | t :: ts => (c :: t) :: ts

/-- Index of the first colon in a character list (strings.Index line ":"). -/
def idxOfColon : List Char → Option Nat
  | [] => none
  | c :: cs => if c = ':' then some 0 else (idxOfColon cs).map (· + 1)

/-- Accumulate a decimal value over a digit list; any non-digit fails. -/
def digitsAux : List Char → Nat → Option Nat
  | [], acc => some acc
  | c :: cs, acc =>
    if '0' ≤ c && c ≤ '9' then digitsAux cs (acc * 10 + (c.toNat - '0'.toNat))
    else none

/-- Core of strconv.Atoi after the sign: a nonempty all-digit string within
the signed 64-bit range. -/
def goAtoiCore (neg : Bool) (ds : List Char) : Option Int :=
  match ds with
  | [] => none
  | _ =>
    match digitsAux ds 0 with
    | none => none
    | some n =>
      if neg then (if n ≤ 9223372036854775808 then some (-(n : Int)) else none)
      else (if n ≤ 9223372036854775807 then some (n : Int) else none)

/-- strconv.Atoi: optional sign, then decimal digits; rejects anything else
and values outside the signed 64-bit range. -/
def goAtoi (s : String) : Option Int :=
  match s.data with
  | '+' :: ds => goAtoiCore false ds
  | '-' :: ds => goAtoiCore true ds
  | ds => goAtoiCore false ds

/-- An HTTP request, as the Go struct server.Request. -/
structure Request where
  Method : String
  Path : String
  Protocol : String
  Headers : List (String × String)
  Body : List Char
  RemoteAddr : String
deriving DecidableEq, Repr

/-- An HTTP response, as the Go struct server.Response.  The streaming
Reader is modelled by the path of the opened file. -/
structure Response where
  StatusCode : Nat
  StatusText : String
  Protocol : String
  Headers : List (String × String)
  Body : List Nat
  Reader : Option String
deriving DecidableEq, Repr

/-- One pass of the header-reading loop of parseRequest, with explicit fuel.
Each iteration consumes at least one character of the stream, so any fuel
larger than the stream length is enough; the out-of-fuel result coincides
with the end-of-stream error and is never reached for the fuel used by
parseRequest.  Header lines are split at the first colon, both sides
trimmed; a line without a colon is skipped; an empty line ends the loop. -/
def parseHeadersFuel : Nat → List Char → List (String × String) →
    Except String (List (String × String) × List Char)
  | 0, _, _ => .error ("failed to read header: " ++ "EOF")
  | fuel + 1, input, acc =>
    match readLine input with
    | none => .error ("failed to read header: " ++ "EOF")
    | some (line, rest) =>
      let l := trimRightCRLF line
      if l = [] then .ok (acc, rest)
      else
        match idxOfColon l with
        | none => parseHeadersFuel fuel rest acc
        | some i =>
          let key := String.mk (trimSpaceList (l.take i))
          let value := String.mk (trimSpaceList (l.drop (i + 1)))
          parseHeadersFuel fuel rest (mapInsert acc key value)

/-- The header-reading loop of parseRequest. -/
def parseHeaders (input : List Char) (acc : List (String × String)) :
    Except String (List (String × String) × List Char) :=
  parseHeadersFuel (input.length + 1) input acc

/-- The body-reading stage of parseRequest: if a Content-Length header is
present it must parse as a non-negative integer (strconv.Atoi), and when
positive exactly that many bytes are read from the stream; a stream that
ends first is an error (io.ReadFull semantics: EOF when nothing was read,
unexpected EOF on a partial read). -/
def readBody (headers : List (String × String)) (rest : List Char) :
    Except String (List Char × List Char) :=
  match mapGetQ headers "Content-Length" with
  | none => .ok ([], rest)
  | some clHeader =>
    match goAtoi clHeader with
    | none => .error ("invalid content-length: " ++ clHeader)
    | some cl =>
      if cl < 0 then .error ("invalid content-length: " ++ clHeader)
      else if 0 < cl then
        if rest.length < cl.toNat then
          .error ("failed to read body: " ++ (if rest.length = 0 then "EOF" else "unexpected EOF"))
        else .ok (rest.take cl.toNat, rest.drop cl.toNat)
      else .ok ([], rest)

/-- server.parseRequest: read one CRLF-terminated request line which must
split (strings.Split on a single space) into exactly three tokens, accept
only the protocol tokens HTTP/1.1 and HTTP/1.0, then read headers and an
optional Content-Length body.  Returns the request and the unconsumed rest
of the stream. -/
def parseRequest (input : List Char) : Except String (Request × List Char) :=
  match readLine input with
  | none => .error ("failed to read request line: " ++ "EOF")
  | some (line, rest) =>
    match splitChar ' ' (trimRightCRLF line) with
    | [m, p, pr] =>
      if String.mk pr ≠ "HTTP/1.1" && String.mk pr ≠ "HTTP/1.0" then
        .error ("unsupported protocol: " ++ String.mk pr)
      else
        match parseHeaders rest [] with
        | .error e => .error e
        | .ok (hs, rest2) =>
          match readBody hs rest2 with
          | .error e => .error e
          | .ok (body, rest3) =>
            .ok ({ Method := String.mk m, Path := String.mk p, Protocol := String.mk pr,
                   Headers := hs, Body := body, RemoteAddr := "" }, rest3)
    | _ => .error ("invalid request line: " ++ String.mk (trimRightCRLF line))

/-- server.isConnectionClosedError: substring test on the error text for
the messages produced by peer-initiated disconnection. -/
def isConnectionClosedError (e : String) : Bool :=
  goContains e "use of closed network connection" ||
  goContains e "connection reset by peer" ||
  goContains e "broken pipe" ||
  goContains e "EOF"

/-- server.DefaultResponseHeaders. -/
def DefaultResponseHeaders : List (String × String) :=
  [("Accept-Ranges", "bytes"),
   ("Cache-Control", "no-cache"),
   ("Connection", "keep-alive"),
   ("Content-Encoding", "identity"),
   ("Content-Type", "text/plain; charset=utf-8"),
   ("Server", "tiny-http/0.1")]

/-- net/http StatusText for the codes the server uses. -/
def statusText (code : Nat) : String :=
  if code = 200 then "OK"
  else if code = 400 then "Bad Request"
  else if code = 404 then "Not Found"
  else if code = 405 then "Method Not Allowed"
  else if code = 500 then "Internal Server Error"
  else ""

/-- server.HTTPBaseResponse: a plain-text response carrying the status line
as its body, with the default headers plus a computed Content-Length. -/
def HTTPBaseResponse (statusCode : Nat) (sText : String) : Response :=
  let body := strBytes (toString statusCode ++ " " ++ sText)
  let headers := mapInsert (mapInsert DefaultResponseHeaders
    "Content-Length" (toString body.length)) "Content-Type" "text/plain; charset=utf-8"
  { StatusCode := statusCode, StatusText := sText, Protocol := "HTTP/1.1",
    Headers := headers, Body := body, Reader := none }

/-- server.HTTP400BadRequest. -/
def HTTP400BadRequest : Response := HTTPBaseResponse 400 (statusText 400)

/-- server.HTTP404NotFound. -/
def HTTP404NotFound : Response := HTTPBaseResponse 404 (statusText 404)

/-- server.HTTP405MethodNotAllowed, with the Allow header. -/
def HTTP405MethodNotAllowed : Response :=
  let r := HTTPBaseResponse 405 (statusText 405)
  { r with Headers := mapInsert r.Headers "Allow" "GET, HEAD" }

/-- server.HTTP500InternalServerError. -/
def HTTP500InternalServerError : Response := HTTPBaseResponse 500 (statusText 500)

/-- A handler function, as server.HandlerFunc: a request to a response or
an error. -/
def HandlerFunc : Type := Request → Except String Response

/-- A middleware wraps a handler, as server.Middleware. -/
def Middleware : Type := HandlerFunc → HandlerFunc

/-- A compiled pattern entry of the router, as server.compiledPattern: the
original pattern text, the compiled matcher (modelled as a predicate on
paths) and the handler. -/
structure CompiledPattern (α : Type) where
  pattern : String
  regex : String → Bool
  handler : α

/-- server.HTTPRouter: an exact-match map and the compiled patterns in
registration order.  The handler type is a parameter so the same router is
used with handler functions and with opaque handler identifiers. -/
structure HTTPRouter (α : Type) where
  handlers : List (String × α)
  patterns : List (CompiledPattern α)

/-- The regex metacharacter test of AddRoute (strings.ContainsAny with the
set of regex metacharacters). -/
def containsRegexMeta (pattern : String) : Bool :=
  pattern.data.any (fun c => ("^$.*+?{}[]|()".data).contains c)

/-- server.HTTPRouter.AddRoute.  Regex compilation is external
(regexp.Compile); it enters as the compile parameter, returning the
compiled matcher or nothing on a compilation error.  A pattern without
metacharacters, or one that fails to compile, is stored as an exact match
(overwriting); a compiled pattern is appended in registration order. -/
def HTTPRouter.AddRoute {α : Type} (compile : String → Option (String → Bool))
    (r : HTTPRouter α) (pattern : String) (handler : α) : HTTPRouter α :=
  if containsRegexMeta pattern then
    match compile pattern with
    | some re => { r with patterns := r.patterns ++ [⟨pattern, re, handler⟩] }
    | none => { r with handlers := mapInsert r.handlers pattern handler }
  else { r with handlers := mapInsert r.handlers pattern handler }

/-- server.HTTPRouter.Match: the exact-match map is consulted first; only
when it has no entry for the path are the patterns scanned in registration
order. -/
def HTTPRouter.Match {α : Type} (r : HTTPRouter α) (path : String) : Option α :=
  match mapGetQ r.handlers path with
  | some handler => some handler
  | none => (r.patterns.find? (fun cp => cp.regex path)).map (fun cp => cp.handler)

/-- The default-filling loop of BaseMiddleware: every default header not
already present is added. -/
def fillDefaults (headers : List (String × String)) : List (String × String) :=
  DefaultResponseHeaders.foldl
    (fun acc kv => if (mapGetQ acc kv.1).isSome then acc else mapInsert acc kv.1 kv.2) headers

/-- server.BaseMiddleware: after the inner handler, fill missing default
headers, normalize an empty protocol to the request protocol (or HTTP/1.1),
and compute Content-Length from the in-memory body when absent.  The Go
nil-map guard is vacuous here since headers are always a list. -/
def BaseMiddleware : Middleware := fun next request =>
  match next request with
  | .error e => .error e
  | .ok response =>
    let r1 := { response with Headers := fillDefaults response.Headers }
    let r2 := if r1.Protocol = "" then
        { r1 with Protocol := if request.Protocol ≠ "" then request.Protocol else "HTTP/1.1" }
      else r1
    if (mapGetQ r2.Headers "Content-Length").isSome then .ok r2
    else .ok { r2 with Headers := mapInsert r2.Headers "Content-Length" (toString r2.Body.length) }

/-- server.LoggingMiddleware: pure logging side effects only; the response
and the error pass through unchanged, so in the embedding it is the
identity wrapper. -/
def LoggingMiddleware : Middleware := fun next request => next request

/-- server.shouldNotCompress: substring test of the lower-cased content
type against the already-compressed families. -/
def shouldNotCompress (contentType : String) : Bool :=
  let noCompress := ["image/jpeg", "image/png", "image/gif", "image/webp",
    "video/", "audio/", "application/zip", "application/gzip",
    "application/x-gzip", "application/x-compress", "application/x-compressed"]
  noCompress.any (fun nc => goContains (asciiLower contentType) nc)

/-- server.GzipMiddleware.  The gzip codec is the external compress/gzip
library; the compressor enters as the compress parameter (writing to an
in-memory buffer never fails, so the Go error branches of the writer are
unreachable and not modelled).  Skips when the client does not accept gzip,
when a Content-Encoding is already set, when the body is under 1024 bytes,
or when the content type is an already-compressed family; otherwise
replaces the body, sets Content-Encoding and Content-Length, and appends to
or creates the Vary header. -/
def GzipMiddleware (compress : List Nat → List Nat) : Middleware := fun next request =>
  if !(goContains (mapGet request.Headers "Accept-Encoding") "gzip") then next request
  else
    match next request with
    | .error e => .error e
    | .ok response =>
      if mapGet response.Headers "Content-Encoding" ≠ "" then .ok response
      else if response.Body.length < 1024 then .ok response
      else if shouldNotCompress (mapGet response.Headers "Content-Type") then .ok response
      else
        let compressed := compress response.Body
        let hs1 := mapInsert (mapInsert response.Headers "Content-Encoding" "gzip")
          "Content-Length" (toString compressed.length)
        let hs2 := if mapGet hs1 "Vary" ≠ "" then
            mapInsert hs1 "Vary" (mapGet hs1 "Vary" ++ ", Accept-Encoding")
          else mapInsert hs1 "Vary" "Accept-Encoding"
        .ok { response with Body := compressed, Headers := hs2 }

/-- The element-stack core of path.Clean: empty and dot elements vanish, a
dot-dot pops the previous element, is dropped at the root of a rooted path,
and is kept at the front of a relative path.  The stack holds the cleaned
elements in reverse order. -/
def cleanStack (rooted : Bool) : List (List Char) → List (List Char) → List (List Char)
  | stack, [] => stack
  | stack, c :: cs =>
    if c = [] || c = ['.'] then cleanStack rooted stack cs
    else if c = ['.', '.'] then
      match stack with
      | [] => cleanStack rooted (if rooted then [] else [c]) cs
      | top :: rest =>
        if top = ['.', '.'] then cleanStack rooted (c :: top :: rest) cs
        else cleanStack rooted rest cs
    else cleanStack rooted (c :: stack) cs

/-- Join path elements with slashes. -/
def joinSlash : List (List Char) → List Char
  | [] => []
  | [x] => x
  | x :: xs => x ++ '/' :: joinSlash xs

/-- path.Clean for slash-separated paths: resolves dot and dot-dot
elements, collapses repeated slashes, drops a trailing slash, and returns a
single dot for an empty result of a relative path. -/
def pathClean (s : String) : String :=
  let rooted := goStartsWith s "/"
  let elems := (cleanStack rooted [] (splitChar '/' s.data)).reverse
  if rooted then String.mk ('/' :: joinSlash elems)
  else if elems = [] then "."
  else String.mk (joinSlash elems)

/-- path/filepath Join of two elements on a Unix separator: empty elements
are dropped, the rest are joined with a slash and the result is cleaned. -/
def filepathJoin (a b : String) : String :=
  if a = "" then (if b = "" then "" else pathClean b)
  else if b = "" then pathClean a
  else pathClean (a ++ "/" ++ b)

/-- strings.TrimPrefix with the single-slash prefix. -/
def trimLeadSlash (s : String) : String :=
  if goStartsWith s "/" then String.mk (s.data.drop 1) else s

/-- The path component of url.Parse applied to a request target: characters
from the first question mark or hash on are the query/fragment and are
discarded; an ASCII control character makes parsing fail.  Percent-decoding
is not modelled (no claim input contains percent escapes). -/
def urlParse (s : String) : Option String :=
  if s.data.any (fun c => c.toNat < 0x20 || c.toNat = 0x7f) then none
  else some (String.mk (s.data.takeWhile (fun c => c ≠ '?' && c ≠ '#')))

/-- The absolute path the file handler resolves a request path against its
root directory: clean the path, drop the leading slash, and join with the
root (the root, supplied on the command line, is taken to be absolute and
clean, so filepath.Abs is the identity on it). -/
def resolvedPath (dir upath : String) : String :=
  filepathJoin dir (trimLeadSlash (pathClean upath))

/-- path/filepath Ext: the suffix from the final dot of the last
slash-separated element, empty when there is none; the input is scanned in
reverse. -/
def extRev : List Char → List Char → Option (List Char)
  | [], _ => none
  | c :: rest, acc =>
    if c = '.' then some ('.' :: acc)
    else if c = '/' then none
    else extRev rest (c :: acc)

/-- filepath.Ext on a string. -/
def filepathExt (s : String) : String :=
  match extRev s.data.reverse [] with
  | some e => String.mk e
  | none => ""

/-- The fixed extension-to-MIME table of FileHandler.detectContentType. -/
def mimeTypes : List (String × String) :=
  [(".html", "text/html; charset=utf-8"),
   (".htm", "text/html; charset=utf-8"),
   (".css", "text/css; charset=utf-8"),
   (".js", "application/javascript; charset=utf-8"),
   (".json", "application/json; charset=utf-8"),
   (".xml", "application/xml; charset=utf-8"),
   (".txt", "text/plain; charset=utf-8"),
   (".md", "text/markdown; charset=utf-8"),
   (".jpg", "image/jpeg"),
   (".jpeg", "image/jpeg"),
   (".png", "image/png"),
   (".gif", "image/gif"),
   (".svg", "image/svg+xml"),
   (".ico", "image/x-icon"),
   (".webp", "image/webp"),
   (".woff", "font/woff"),
   (".woff2", "font/woff2"),
   (".ttf", "font/ttf"),
   (".otf", "font/otf"),
   (".pdf", "application/pdf"),
   (".doc", "application/msword"),
   (".docx", "application/vnd.openxmlformats-officedocument.wordprocessingml.document"),
   (".zip", "application/zip"),
   (".tar", "application/x-tar"),
   (".gz", "application/gzip"),
   (".mp3", "audio/mpeg"),
   (".mp4", "video/mp4"),
   (".webm", "video/webm"),
   (".ogg", "audio/ogg"),
   (".wav", "audio/wav"),
   (".avi", "video/x-msvideo"),
   (".mov", "video/quicktime")]

/-- FileHandler.detectContentType: the fixed table first, then the system
MIME lookup (mime.TypeByExtension, an external collaborator passed as the
sysMime parameter) when it returns a non-empty string, then the plain-text
default. -/
def detectContentType (sysMime : String → String) (filename : String) : String :=
  let ext := asciiLower (filepathExt filename)
  match mapGetQ mimeTypes ext with
  | some mimeType => mimeType
  | none =>
    if sysMime ext ≠ "" then sysMime ext
    else "text/plain; charset=utf-8"

/-- FileHandler.shouldCache: the fixed allow-list of cacheable extensions. -/
def shouldCache (filename : String) : Bool :=
  let ext := asciiLower (filepathExt filename)
  [".css", ".js", ".png", ".jpg", ".jpeg", ".gif", ".svg", ".ico",
   ".woff", ".woff2", ".ttf", ".otf"].any (fun e => e = ext)

/-- os.FileInfo as the handler consumes it: size, directory flag, and the
already-formatted modification time (time formatting is external). -/
structure FileInfo where
  size : Nat
  isDir : Bool
  modTimeStr : String
deriving DecidableEq, Repr

/-- The result of os.Stat: success, a not-exist error, or another error
(such as permission denied) carrying its message. -/
inductive StatResult where
  | ok (fi : FileInfo)
  | notExist
  | otherErr (msg : String)
deriving DecidableEq, Repr

/-- The filesystem and system MIME lookup as the file handler's external
collaborators: stat, open (some message on failure), the file contents read
by io.ReadAll (whose rare read errors are not modelled), and
mime.TypeByExtension. -/
structure FS where
  stat : String → StatResult
  openErr : String → Option String
  content : String → List Nat
  sysMime : String → String

/-- The tail of FileHandler.Handle once a file (not a directory) has been
resolved: build the 200 response with content type, content length,
last-modified, optional cache-control and accept-ranges headers; a file
strictly larger than the 1 MiB threshold is streamed (the response carries
the opened file as its Reader and no in-memory body), a smaller one is read
fully into memory. -/
def serveFile (fs : FS) (request : Request) (fullPath : String) (fi : FileInfo) :
    Except String Response :=
  let fileSize := fi.size
  let contentType := detectContentType fs.sysMime fullPath
  let hs0 := mapInsert ([] : List (String × String)) "Content-Type" contentType
  let hs1 := mapInsert hs0 "Content-Length" (toString fileSize)
  let hs2 := mapInsert hs1 "Last-Modified" fi.modTimeStr
  let hs3 := if shouldCache fullPath then mapInsert hs2 "Cache-Control" "public, max-age=3600" else hs2
  let hs4 := mapInsert hs3 "Accept-Ranges" "bytes"
  if fileSize > 1024 * 1024 then
    match fs.openErr fullPath with
    | some m => .error ("failed to open file: " ++ m)
    | none =>
      .ok { StatusCode := 200, StatusText := statusText 200, Protocol := request.Protocol,
            Headers := hs4, Body := [], Reader := some fullPath }
  else
    match fs.openErr fullPath with
    | some m => .error ("failed to open file: " ++ m)
    | none =>
      .ok { StatusCode := 200, StatusText := statusText 200, Protocol := request.Protocol,
            Headers := hs4, Body := fs.content fullPath, Reader := none }

/-- FileHandler.Handle: parse the request target, clean it, resolve it
against the root, reject resolutions failing the string-prefix check with
404, then stat; a missing file falls back to index.html only for the empty
cleaned path (the cleaned full path never keeps a trailing slash), a
directory falls back to index.html, an absent index yields 404, any other
stat error propagates as a handler error, and a resolved file is served by
serveFile. -/
def FileHandler.Handle (fs : FS) (dir : String) (request : Request) :
    Except String Response :=
  match urlParse request.Path with
  | none => .error ("invalid URL path: " ++ request.Path)
  | some upath =>
    let cleanPath := trimLeadSlash (pathClean upath)
    let fullPath := filepathJoin dir cleanPath
    if !(goStartsWith fullPath dir) then .ok HTTP404NotFound
    else
      match fs.stat fullPath with
      | .notExist =>
        if goEndsWith fullPath "/" || cleanPath = "" then
          let indexPath := filepathJoin fullPath "index.html"
          match fs.stat indexPath with
          | .ok fi2 => serveFile fs request indexPath fi2
          | _ => .ok HTTP404NotFound
        else .ok HTTP404NotFound
      | .otherErr m => .error ("failed to stat file: " ++ m)
      | .ok fi =>
        if fi.isDir then
          let indexPath := filepathJoin fullPath "index.html"
          match fs.stat indexPath with
          | .ok fi2 => serveFile fs request indexPath fi2
          | _ => .ok HTTP404NotFound
        else serveFile fs request fullPath fi

/-- The middleware stack installed by NewHTTPServer, outermost first:
Base, Logging, Gzip. -/
def serverMiddlewares (compress : List Nat → List Nat) : List Middleware :=
  [BaseMiddleware, LoggingMiddleware, GzipMiddleware compress]

/-- The wrapping loop of handleRequest: middlewares are applied from the
last to the first, so the first-registered middleware is outermost. -/
def buildPipeline (mws : List Middleware) (handler : HandlerFunc) : HandlerFunc :=
  mws.foldr (fun m acc => m acc) handler

/-- server.HTTPServer.handleRequest: 405 for methods other than GET and
HEAD, 404 when the router has no match, 500 when the wrapped handler
errors; on success the body and any streaming reader of a HEAD response are
discarded while every header is kept. -/
def handleRequest (compress : List Nat → List Nat)
    (router : HTTPRouter HandlerFunc) (request : Request) : Response :=
  if request.Method ≠ "GET" ∧ request.Method ≠ "HEAD" then HTTP405MethodNotAllowed
  else
    match router.Match request.Path with
    | none => HTTP404NotFound
    | some handler =>
      match buildPipeline (serverMiddlewares compress) handler request with
      | .error _ => HTTP500InternalServerError
      | .ok response =>
        if request.Method = "HEAD" then { response with Body := [], Reader := none }
        else response

/-- What one iteration of handleConnection leaves behind: the response
written to the connection, if any, and whether a parse failure was logged
as an error. -/
structure ConnStep where
  written : Option Response
  loggedParseError : Bool
deriving DecidableEq, Repr

/-- One iteration of server.HTTPServer.handleConnection with the shutdown
context not cancelled: a parse failure closes the connection with nothing
written, logging the failure only when it is not a peer-initiated
disconnection; a parsed request is answered by handleRequest and the
response written back. -/
def handleConnectionStep (compress : List Nat → List Nat)
    (router : HTTPRouter HandlerFunc) (input : List Char) : ConnStep :=
  match parseRequest input with
  | .error e => { written := none, loggedParseError := !isConnectionClosedError e }
  | .ok (request, _) => { written := some (handleRequest compress router request), loggedParseError := false }

/-- The meaning the specification gives to a resolved path lying within the
root: it is the root itself or lies strictly below it.  Stated from the
spec's words, to be compared with the handler's string-prefix check. -/
def withinRootSpec (root p : String) : Bool :=
  p = root || listIsPref (root ++ "/").data p.data

/-- Fixture: a filesystem holding a file at an absolute path that lies
outside the root directory but shares the root as a string prefix. -/
def fsSibling : FS :=
  { stat := fun p => if p = "/srv/root2/x" then .ok ⟨5, false, "tm"⟩ else .notExist,
    openErr := fun _ => none,
    content := fun _ => strBytes "hello",
    sysMime := fun _ => "" }

/-- Fixture: the request whose target escapes to the sibling directory. -/
def reqSibling : Request := ⟨"GET", "../root2/x", "HTTP/1.1", [], [], ""⟩

/-- The response the handler produces for the sibling-escape request. -/
def respSibling : Response :=
  (FileHandler.Handle fsSibling "/srv/root" reqSibling).toOption.getD HTTP404NotFound

/-- Fixture: a filesystem with a file that stats fine but cannot be
opened (permission denied), as in the handler's own permission test. -/
def fsNoRead : FS :=
  { stat := fun p => if p = "/srv/root/noread.txt" then .ok ⟨6, false, "tm"⟩ else .notExist,
    openErr := fun p => if p = "/srv/root/noread.txt" then some "permission denied" else none,
    content := fun _ => [],
    sysMime := fun _ => "" }

/-- Fixture: the request for the unreadable file. -/
def reqNoRead : Request := ⟨"GET", "/noread.txt", "HTTP/1.1", [], [], ""⟩

/-- Fixture: a filesystem holding a file of exactly 1 MiB. -/
def fsMib : FS :=
  { stat := fun p => if p = "/r/big.bin" then .ok ⟨1048576, false, "tm"⟩ else .notExist,
    openErr := fun _ => none,
    content := fun _ => List.replicate 1048576 7,
    sysMime := fun _ => "" }

/-- Fixture: a filesystem holding a file of 1 MiB plus one byte. -/
def fsOverMib : FS :=
  { stat := fun p => if p = "/r/big.bin" then .ok ⟨1048577, false, "tm"⟩ else .notExist,
    openErr := fun _ => none,
    content := fun _ => List.replicate 1048577 7,
    sysMime := fun _ => "" }

/-- Fixture: the request for the large file. -/
def reqMib : Request := ⟨"GET", "/big.bin", "HTTP/1.1", [], [], ""⟩

/-- Fixture: a handler that ignores the request and serves a small HTML
body. -/
def handlerW : HandlerFunc :=
  fun _ => .ok ⟨200, "OK", "", [("Content-Type", "text/html; charset=utf-8")], strBytes "hi", none⟩

/-- Fixture: a router with one exact route to the fixture handler. -/
def routerW : HTTPRouter HandlerFunc := ⟨[("/f", handlerW)], []⟩

/-- Fixture: a GET request for the fixture route. -/
def reqGetW : Request := ⟨"GET", "/f", "HTTP/1.1", [], [], ""⟩

/-- The response of the full middleware pipeline on the fixture GET. -/
def respPipeW : Response :=
  (buildPipeline (serverMiddlewares id) handlerW reqGetW).toOption.getD HTTP404NotFound

/-- Fixture: a router over opaque handler identifiers whose pattern matches
every path while the exact map binds one path. -/
def routerEx : HTTPRouter Nat := ⟨[("/exact", 7)], [⟨"^/.*$", fun _ => true, 9⟩]⟩

/-- Fixture: a regex compiler defined on the one pattern of the spec's
precedence example. -/
def compileTest : String → Option (String → Bool) :=
  fun p => if p = "^/test.*$" then some (fun s => goStartsWith s "/test") else none

/-- Fixture: an injective stand-in for the gzip compressor. -/
def gzC : List Nat → List Nat := fun b => 0 :: b

/-- Fixture: the left inverse of the stand-in compressor. -/
def gunzC : List Nat → List Nat := fun b => b.drop 1

/-- Fixture: a response with a 1024-byte plain body and no special headers. -/
def respBigW : Response := ⟨200, "OK", "HTTP/1.1", [], List.replicate 1024 65, none⟩

/-- Fixture: a response with a 500-byte plain body. -/
def respSmallW : Response := ⟨200, "OK", "HTTP/1.1", [], List.replicate 500 65, none⟩

/-- Fixture: a request declaring gzip support. -/
def reqGzW : Request := ⟨"GET", "/f", "HTTP/1.1", [("Accept-Encoding", "gzip")], [], ""⟩

/-- Fixture: the empty router over handler functions. -/
def routerNil : HTTPRouter HandlerFunc := ⟨[], []⟩

/-- The response of serveFile on the over-threshold fixture file. -/
def respOverMib : Response :=
  (serveFile fsOverMib reqMib "/r/big.bin" ⟨1048577, false, "tm"⟩).toOption.getD HTTP404NotFound

/-- Fixture: a streaming response with an empty in-memory body. -/
def respStreamW : Response :=
  ⟨200, "OK", "HTTP/1.1", [("Content-Type", "text/plain; charset=utf-8")], [], some "/r/big.bin"⟩

theorem mapGetQ_insert_self {α : Type} (m : List (String × α)) (k : String) (v : α) :
    mapGetQ (mapInsert m k v) k = some v := by
  induction m with
  | nil => simp [mapInsert, mapGetQ]
  | cons p t ih =>
    obtain ⟨k0, v0⟩ := p
    by_cases h : k0 = k
    · subst h; simp [mapInsert, mapGetQ]
    · simp [mapInsert, h, mapGetQ, List.find?] at ih ⊢
      exact ih

theorem mapGetQ_insert_ne {α : Type} (m : List (String × α)) (k1 k2 : String) (v : α)
    (h : k1 ≠ k2) : mapGetQ (mapInsert m k1 v) k2 = mapGetQ m k2 := by
  induction m with
  | nil => simp [mapInsert, mapGetQ, List.find?, h]
  | cons p t ih =>
    obtain ⟨k0, v0⟩ := p
    by_cases h0 : k0 = k1
    · subst h0
      simp [mapInsert, mapGetQ, List.find?, h]
    · by_cases h2 : k0 = k2
      · subst h2; simp [mapInsert, h0, mapGetQ, List.find?]
      · simp [mapInsert, h0, mapGetQ, List.find?, h2] at ih ⊢
        exact ih

theorem mapGet_insert_self (m : List (String × String)) (k v : String) :
    mapGet (mapInsert m k v) k = v := by
  simp [mapGet, mapGetQ_insert_self]

theorem mapGet_insert_ne (m : List (String × String)) (k1 k2 v : String) (h : k1 ≠ k2) :
    mapGet (mapInsert m k1 v) k2 = mapGet m k2 := by
  simp [mapGet, mapGetQ_insert_ne m k1 k2 v h]

/-- C1 (amended): for every request whose parsing fails, for any reason,
the connection handler closes the connection without writing any response;
the failure is logged exactly when it is not a peer-initiated
disconnection. -/
theorem c1_parse_failure_closes_silently (compress : List Nat → List Nat)
    (router : HTTPRouter HandlerFunc) (input : List Char) (e : String)
    (h : parseRequest input = .error e) :
    handleConnectionStep compress router input =
      { written := none, loggedParseError := !isConnectionClosedError e } := by
  simp [handleConnectionStep, h]

theorem c1_witness :
    handleConnectionStep id routerNil "AB\r\n".data =
      { written := none, loggedParseError := !isConnectionClosedError "invalid request line: AB" } :=
  c1_parse_failure_closes_silently id routerNil "AB\r\n".data "invalid request line: AB" rfl

/-- C1 counterexample: the input AB followed by CRLF fails to parse with a
bad start line, an error that is not a peer disconnection, yet the
connection handler writes nothing at all — in particular no 400 response —
before closing. -/
theorem c1_counterex_no_response_written :
    parseRequest "AB\r\n".data = .error "invalid request line: AB" ∧
    isConnectionClosedError "invalid request line: AB" = false ∧
    (handleConnectionStep id routerNil "AB\r\n".data).written = none := by
  exact ⟨rfl, by decide, by decide⟩

/-- C3: an exact-match entry always wins regardless of the patterns; with
no exact entry the first matching pattern in registration order wins; with
neither the resolution is a not-found result; and the spec's precedence
example — a catch-all pattern registered before the exact path — resolves
to the exact handler. -/
theorem c3_router_resolution :
    (∀ (α : Type) (r : HTTPRouter α) (path : String) (h : α),
      mapGetQ r.handlers path = some h → r.Match path = some h) ∧
    (∀ (α : Type) (r : HTTPRouter α) (path : String),
      mapGetQ r.handlers path = none →
        r.Match path = (r.patterns.find? (fun cp => cp.regex path)).map (fun cp => cp.handler)) ∧
    (∀ (α : Type) (r : HTTPRouter α) (path : String),
      mapGetQ r.handlers path = none →
      r.patterns.find? (fun cp => cp.regex path) = none → r.Match path = none) ∧
    ((HTTPRouter.AddRoute compileTest
        (HTTPRouter.AddRoute compileTest ⟨[], []⟩ "^/test.*$" 1) "/test" 2).Match "/test"
      = some 2) := by
  refine ⟨?_, ?_, ?_, ?_⟩
  · intro α r path h hm
    simp [HTTPRouter.Match, hm]
  · intro α r path hm
    simp [HTTPRouter.Match, hm]
  · intro α r path hm hp
    simp [HTTPRouter.Match, hm, hp]
  · rfl

theorem c3_witness : routerEx.Match "/exact" = some 7 :=
  c3_router_resolution.1 Nat routerEx "/exact" 7 (by decide)

/-- C6: the request parser rejects a request line that does not split into
exactly three space-separated tokens, rejects any protocol token other than
HTTP/1.1 and HTTP/1.0, accepts only under those conditions, and on the
spec's concrete example yields method GET, path /x, protocol HTTP/1.1 and
an empty body. -/
theorem c6_request_line_acceptance :
    (∀ (input line rest : List Char),
      readLine input = some (line, rest) →
      (splitChar ' ' (trimRightCRLF line)).length ≠ 3 →
      parseRequest input = .error ("invalid request line: " ++ String.mk (trimRightCRLF line))) ∧
    (∀ (input line rest m p pr : List Char),
      readLine input = some (line, rest) →
      splitChar ' ' (trimRightCRLF line) = [m, p, pr] →
      String.mk pr ≠ "HTTP/1.1" → String.mk pr ≠ "HTTP/1.0" →
      parseRequest input = .error ("unsupported protocol: " ++ String.mk pr)) ∧
    (∀ (input : List Char) (req : Request) (rest : List Char),
      parseRequest input = .ok (req, rest) →
      (req.Protocol = "HTTP/1.1" ∨ req.Protocol = "HTTP/1.0") ∧
      ∃ line rest2, readLine input = some (line, rest2) ∧
        (splitChar ' ' (trimRightCRLF line)).length = 3) ∧
    (parseRequest "GET /x HTTP/1.1\r\nHost: h\r\n\r\n".data =
      .ok ({ Method := "GET", Path := "/x", Protocol := "HTTP/1.1",
             Headers := [("Host", "h")], Body := [], RemoteAddr := "" }, [])) := by
  refine ⟨?_, ?_, ?_, rfl⟩
  · intro input line rest hline hlen
    simp only [parseRequest, hline]
    rcases hl : splitChar ' ' (trimRightCRLF line) with _ | ⟨a, _ | ⟨b, _ | ⟨c, _ | ⟨d, tl⟩⟩⟩⟩
    · rfl
    · rfl
    · rfl
    · rw [hl] at hlen; simp at hlen
    · rfl
  · intro input line rest m p pr hline hsplit hp1 hp2
    simp only [parseRequest, hline, hsplit]
    simp [hp1, hp2]
  · intro input req rest h
    unfold parseRequest at h
    split at h
    · exact Except.noConfusion h
    next line rest2 hline =>
      split at h
      case _ m p pr hsplit =>
        split at h
        · exact Except.noConfusion h
        next hprot =>
          split at h
          · exact Except.noConfusion h
          next hs rest3 hhdr =>
            split at h
            · exact Except.noConfusion h
            next body rest4 hbody =>
              obtain ⟨hreq, hrest⟩ := Prod.mk.injEq .. ▸ (Except.ok.inj h)
              refine ⟨?_, line, rest2, hline, by rw [hsplit]; rfl⟩
              rw [← hreq]
              simp only [Bool.and_eq_true, decide_eq_true_eq, not_and, not_not,
                Bool.not_eq_true, Bool.and_eq_false_iff, decide_eq_false_iff_not] at hprot
              rcases Decidable.em (String.mk pr = "HTTP/1.1") with hq | hq
              · left; exact hq
              · right; exact hprot hq
      next hother =>
        exact Except.noConfusion h

theorem c6_witness :
    parseRequest "GET /x HTTP/2\r\n\r\n".data = .error "unsupported protocol: HTTP/2" :=
  c6_request_line_acceptance.2.1 "GET /x HTTP/2\r\n\r\n".data "GET /x HTTP/2\r\n".data "\r\n".data
    "GET".data "/x".data "HTTP/2".data (by decide) (by decide) (by decide) (by decide)

/-- C7: with a Content-Length header present, the body stage of the parser
fails with the invalid-content-length error exactly when the value does not
parse as an integer or is negative; for a positive value n with enough
stream it reads exactly the first n bytes as the body and leaves the rest,
an early end of stream is an error, and a successfully parsed request's
body has exactly n bytes. -/
theorem c7_content_length_body :
    (∀ (hs : List (String × String)) (rest : List Char) (v : String),
      mapGetQ hs "Content-Length" = some v → goAtoi v = none →
      readBody hs rest = .error ("invalid content-length: " ++ v)) ∧
    (∀ (hs : List (String × String)) (rest : List Char) (v : String) (n : Int),
      mapGetQ hs "Content-Length" = some v → goAtoi v = some n → n < 0 →
      readBody hs rest = .error ("invalid content-length: " ++ v)) ∧
    (∀ (hs : List (String × String)) (rest : List Char) (v : String) (n : Int),
      mapGetQ hs "Content-Length" = some v → goAtoi v = some n → 0 < n →
      n.toNat ≤ rest.length →
      readBody hs rest = .ok (rest.take n.toNat, rest.drop n.toNat)) ∧
    (∀ (hs : List (String × String)) (rest : List Char) (v : String) (n : Int),
      mapGetQ hs "Content-Length" = some v → goAtoi v = some n → 0 < n →
      rest.length < n.toNat →
      readBody hs rest =
        .error ("failed to read body: " ++ (if rest.length = 0 then "EOF" else "unexpected EOF"))) ∧
    (∀ (input : List Char) (req : Request) (rest : List Char) (v : String) (n : Int),
      parseRequest input = .ok (req, rest) →
      mapGetQ req.Headers "Content-Length" = some v → goAtoi v = some n → 0 < n →
      req.Body.length = n.toNat) := by
  refine ⟨?_, ?_, ?_, ?_, ?_⟩
  · intro hs rest v hcl hatoi
    simp [readBody, hcl, hatoi]
  · intro hs rest v n hcl hatoi hneg
    simp [readBody, hcl, hatoi, hneg]
  · intro hs rest v n hcl hatoi hpos hlen
    have h1 : ¬(n < 0) := by omega
    have h2 : ¬(rest.length < n.toNat) := by omega
    simp [readBody, hcl, hatoi, h1, hpos, h2]
  · intro hs rest v n hcl hatoi hpos hlen
    have h1 : ¬(n < 0) := by omega
    simp [readBody, hcl, hatoi, h1, hpos, hlen]
  · intro input req rest v n h hcl hatoi hpos
    unfold parseRequest at h
    split at h
    · exact Except.noConfusion h
    next line rest2 hline =>
      split at h
      case _ m p pr hsplit =>
        split at h
        · exact Except.noConfusion h
        next hprot =>
          split at h
          · exact Except.noConfusion h
          next hdrs rest3 hhdr =>
            split at h
            · exact Except.noConfusion h
            next body rest4 hbody =>
              obtain ⟨hreq, hrest⟩ := Prod.mk.injEq .. ▸ (Except.ok.inj h)
              have hhead : req.Headers = hdrs := by rw [← hreq]
              have hbodyeq : req.Body = body := by rw [← hreq]
              rw [hhead] at hcl
              have h1 : ¬(n < 0) := by omega
              simp only [readBody, hcl, hatoi] at hbody
              rw [if_neg h1, if_pos hpos] at hbody
              by_cases h2 : rest3.length < n.toNat
              · rw [if_pos h2] at hbody
                exact Except.noConfusion hbody
              · rw [if_neg h2] at hbody
                obtain ⟨hb, _⟩ := Prod.mk.injEq .. ▸ (Except.ok.inj hbody)
                rw [hbodyeq, ← hb, List.length_take]
                omega
      next hother =>
        exact Except.noConfusion h

theorem c7_witness :
    readBody [("Content-Length", "5")] "hello world".data =
      .ok ("hello".data, " world".data) ∧
    readBody [("Content-Length", "-1")] "hi".data =
      .error "invalid content-length: -1" ∧
    readBody [("Content-Length", "9")] "hi".data =
      .error ("failed to read body: " ++ (if ("hi".data).length = 0 then "EOF" else "unexpected EOF")) :=
  ⟨c7_content_length_body.2.2.1 [("Content-Length", "5")] "hello world".data "5" 5
      (by decide) (by decide) (by decide) (by decide),
   c7_content_length_body.2.1 [("Content-Length", "-1")] "hi".data "-1" (-1)
      (by decide) (by decide) (by decide),
   c7_content_length_body.2.2.2.1 [("Content-Length", "9")] "hi".data "9" 9
      (by decide) (by decide) (by decide) (by decide)⟩

theorem serveFile_status (fs : FS) (request : Request) (p : String) (fi : FileInfo)
    (resp : Response) (h : serveFile fs request p fi = .ok resp) : resp.StatusCode = 200 := by
  simp only [serveFile] at h
  repeat' split at h
  all_goals first
    | exact Except.noConfusion h
    | (have h2 := Except.ok.inj h
       rw [← h2])

/-- C2 (amended): a request whose resolved path fails the root
string-prefix check is answered 404, and the handler never produces a 403
(every non-error response is 200 or 404); but the prefix check is a plain
string comparison that also admits paths under a sibling directory sharing
the root as a string prefix, and a permission-denied condition surfaces as
a handler error (which the server maps to 500), not as 404. -/
theorem c2_traversal_and_permissions :
    (∀ (fs : FS) (dir : String) (request : Request) (upath : String),
      urlParse request.Path = some upath →
      goStartsWith (resolvedPath dir upath) dir = false →
      FileHandler.Handle fs dir request = .ok HTTP404NotFound) ∧
    (∀ (fs : FS) (dir : String) (request : Request) (resp : Response),
      FileHandler.Handle fs dir request = .ok resp →
      resp.StatusCode = 200 ∨ resp.StatusCode = 404) := by
  constructor
  · intro fs dir request upath hurl hpref
    simp only [resolvedPath] at hpref
    simp [FileHandler.Handle, hurl, hpref]
  · intro fs dir request resp h
    simp only [FileHandler.Handle] at h
    repeat' split at h
    all_goals first
      | exact Except.noConfusion h
      | (left; exact serveFile_status _ _ _ _ _ h)
      | (right
         have h2 := Except.ok.inj h
         rw [← h2]
         rfl)

theorem c2_witness :
    FileHandler.Handle fsSibling "/srv/root" ⟨"GET", "../x", "HTTP/1.1", [], [], ""⟩ =
      .ok HTTP404NotFound :=
  c2_traversal_and_permissions.1 fsSibling "/srv/root"
    ⟨"GET", "../x", "HTTP/1.1", [], [], ""⟩ "../x" (by decide) (by decide)

/-- C2 counterexample: the request target ../root2/x against the root
/srv/root resolves to /srv/root2/x — outside the root in the spec's sense —
yet passes the handler's string-prefix check and is served with 200; and a
file that stats fine but cannot be opened (permission denied) makes the
handler return an error, which the server turns into 500, not 404. -/
theorem c2_counterex_escape_and_permission :
    FileHandler.Handle fsSibling "/srv/root" reqSibling = .ok respSibling ∧
    respSibling.StatusCode = 200 ∧
    respSibling.Body = strBytes "hello" ∧
    resolvedPath "/srv/root" "../root2/x" = "/srv/root2/x" ∧
    withinRootSpec "/srv/root" "/srv/root2/x" = false ∧
    FileHandler.Handle fsNoRead "/srv/root" reqNoRead =
      .error "failed to open file: permission denied" := by
  exact ⟨rfl, rfl, rfl, by decide, by decide, rfl⟩

/-- C8 (amended): a file strictly larger than the 1 MiB threshold is
served as a stream (the response carries the opened file and an empty
in-memory body); a file of at most 1 MiB — including one of exactly 1 MiB —
is read fully into memory and served without a stream. -/
theorem c8_streaming_threshold :
    (∀ (fs : FS) (request : Request) (p : String) (fi : FileInfo) (resp : Response),
      serveFile fs request p fi = .ok resp → 1024 * 1024 < fi.size →
      resp.Reader = some p ∧ resp.Body = []) ∧
    (∀ (fs : FS) (request : Request) (p : String) (fi : FileInfo) (resp : Response),
      serveFile fs request p fi = .ok resp → fi.size ≤ 1024 * 1024 →
      resp.Reader = none ∧ resp.Body = fs.content p) := by
  constructor
  · intro fs request p fi resp h hsize
    simp only [serveFile] at h
    rw [if_pos (by omega : fi.size > 1024 * 1024)] at h
    split at h
    · exact Except.noConfusion h
    · have h2 := Except.ok.inj h
      rw [← h2]
      exact ⟨rfl, rfl⟩
  · intro fs request p fi resp h hsize
    simp only [serveFile] at h
    rw [if_neg (by omega : ¬(fi.size > 1024 * 1024))] at h
    split at h
    · exact Except.noConfusion h
    · have h2 := Except.ok.inj h
      rw [← h2]
      exact ⟨rfl, rfl⟩

theorem c8_witness :
    respOverMib.Reader = some "/r/big.bin" ∧ respOverMib.Body = [] :=
  c8_streaming_threshold.1 fsOverMib reqMib "/r/big.bin" ⟨1048577, false, "tm"⟩ respOverMib
    rfl (by decide)

/-- C8 counterexample: a file of exactly 1 MiB — at the threshold — is not
streamed: the handler returns it as an in-memory body with no reader,
while the claim demands a streaming source at or above the threshold. -/
theorem c8_counterex_exact_threshold :
    fsMib.stat "/r/big.bin" = .ok ⟨1024 * 1024, false, "tm"⟩ ∧
    (FileHandler.Handle fsMib "/r" reqMib).toOption.map (fun r => r.Reader) = some none := by
  exact ⟨rfl, rfl⟩

/-- C9 (amended): the content type is the fixed table's entry for the
lower-cased extension when present, otherwise the system MIME lookup when
that is non-empty, otherwise the plain-text default
text/plain; charset=utf-8 (not a generic byte-stream type). -/
theorem c9_content_type_precedence :
    (∀ (sysMime : String → String) (fn m : String),
      mapGetQ mimeTypes (asciiLower (filepathExt fn)) = some m →
      detectContentType sysMime fn = m) ∧
    (∀ (sysMime : String → String) (fn : String),
      mapGetQ mimeTypes (asciiLower (filepathExt fn)) = none →
      sysMime (asciiLower (filepathExt fn)) ≠ "" →
      detectContentType sysMime fn = sysMime (asciiLower (filepathExt fn))) ∧
    (∀ (sysMime : String → String) (fn : String),
      mapGetQ mimeTypes (asciiLower (filepathExt fn)) = none →
      sysMime (asciiLower (filepathExt fn)) = "" →
      detectContentType sysMime fn = "text/plain; charset=utf-8") := by
  refine ⟨?_, ?_, ?_⟩
  · intro sysMime fn m hm
    simp [detectContentType, hm]
  · intro sysMime fn hm hsys
    simp [detectContentType, hm, hsys]
  · intro sysMime fn hm hsys
    simp [detectContentType, hm, hsys]

theorem c9_witness :
    detectContentType (fun _ => "") "page.HTML" = "text/html; charset=utf-8" :=
  c9_content_type_precedence.1 (fun _ => "") "page.HTML" "text/html; charset=utf-8" (by decide)

/-- C9 counterexample: for an extension in neither the table nor the system
lookup, the fallback is the plain-text type, not a generic byte-stream
(application/octet-stream) default. -/
theorem c9_counterex_default_is_plain_text :
    detectContentType (fun _ => "") "file.xyz" = "text/plain; charset=utf-8" ∧
    detectContentType (fun _ => "") "file.xyz" ≠ "application/octet-stream" := by
  exact ⟨rfl, by decide⟩

/-- C10: a response whose in-memory body is empty — in particular every
streaming response — passes through the gzip middleware completely
unchanged, whatever the request's Accept-Encoding, because the size check
reads only the in-memory body; and files strictly above the 1 MiB
threshold are exactly the ones served that way (empty body, reader set). -/
theorem c10_streams_never_compressed :
    (∀ (compress : List Nat → List Nat) (next : HandlerFunc) (request : Request) (resp : Response),
      next request = .ok resp → resp.Body = [] →
      GzipMiddleware compress next request = .ok resp) ∧
    (∀ (fs : FS) (request : Request) (p : String) (fi : FileInfo) (resp : Response),
      serveFile fs request p fi = .ok resp → 1024 * 1024 < fi.size →
      resp.Body = [] ∧ resp.Reader = some p) := by
  constructor
  · intro compress next request resp hnext hbody
    by_cases hAE : goContains (mapGet request.Headers "Accept-Encoding") "gzip"
    · by_cases hCE : mapGet resp.Headers "Content-Encoding" = ""
      · simp [GzipMiddleware, hAE, hnext, hCE, hbody]
      · simp [GzipMiddleware, hAE, hnext, hCE]
    · simp [GzipMiddleware, hAE, hnext]
  · intro fs request p fi resp h hsize
    simp only [serveFile] at h
    rw [if_pos (by omega : fi.size > 1024 * 1024)] at h
    split at h
    · exact Except.noConfusion h
    · have h2 := Except.ok.inj h
      rw [← h2]
      exact ⟨rfl, rfl⟩

theorem c10_witness :
    GzipMiddleware id (fun _ => .ok respStreamW) reqGzW = .ok respStreamW :=
  c10_streams_never_compressed.1 id (fun _ => .ok respStreamW) reqGzW respStreamW rfl rfl

/-- C4: when the client declares gzip support, the response has no
Content-Encoding yet, its content type is compressible and its in-memory
body is at least 1024 bytes, the middleware replaces the body with the
compressed bytes — which decompress exactly to the original —, sets
Content-Encoding: gzip and recomputes Content-Length; a body under the
threshold is returned unchanged.  The gzip codec is the external
compress/gzip library, modelled by any compressor with a left inverse. -/
theorem c4_gzip_threshold_and_roundtrip (compress decompress : List Nat → List Nat)
    (hinv : ∀ b, decompress (compress b) = b)
    (next : HandlerFunc) (request : Request) (resp : Response)
    (hAE : goContains (mapGet request.Headers "Accept-Encoding") "gzip" = true)
    (hnext : next request = .ok resp)
    (hCE : mapGet resp.Headers "Content-Encoding" = "")
    (hct : shouldNotCompress (mapGet resp.Headers "Content-Type") = false) :
    (1024 ≤ resp.Body.length →
      ∃ resp2, GzipMiddleware compress next request = .ok resp2 ∧
        resp2.Body = compress resp.Body ∧
        decompress resp2.Body = resp.Body ∧
        mapGet resp2.Headers "Content-Encoding" = "gzip" ∧
        mapGet resp2.Headers "Content-Length" = toString (compress resp.Body).length) ∧
    (resp.Body.length < 1024 → GzipMiddleware compress next request = .ok resp) := by
  constructor
  · intro hlen
    have hsmall : ¬(resp.Body.length < 1024) := by omega
    have heq : GzipMiddleware compress next request = .ok
        { resp with
          Body := compress resp.Body,
          Headers :=
            (if mapGet (mapInsert (mapInsert resp.Headers "Content-Encoding" "gzip")
                "Content-Length" (toString (compress resp.Body).length)) "Vary" ≠ "" then
              mapInsert (mapInsert (mapInsert resp.Headers "Content-Encoding" "gzip")
                  "Content-Length" (toString (compress resp.Body).length)) "Vary"
                (mapGet (mapInsert (mapInsert resp.Headers "Content-Encoding" "gzip")
                  "Content-Length" (toString (compress resp.Body).length)) "Vary"
                  ++ ", Accept-Encoding")
            else
              mapInsert (mapInsert (mapInsert resp.Headers "Content-Encoding" "gzip")
                  "Content-Length" (toString (compress resp.Body).length)) "Vary"
                "Accept-Encoding") } := by
      simp [GzipMiddleware, hAE, hnext, hCE, hct, hsmall]
    refine ⟨_, heq, rfl, hinv _, ?_, ?_⟩
    · dsimp only
      by_cases hv : mapGet (mapInsert (mapInsert resp.Headers "Content-Encoding" "gzip")
          "Content-Length" (toString (compress resp.Body).length)) "Vary" ≠ ""
      · rw [if_pos hv, mapGet_insert_ne _ _ _ _ (by decide),
          mapGet_insert_ne _ _ _ _ (by decide), mapGet_insert_self]
      · rw [if_neg hv, mapGet_insert_ne _ _ _ _ (by decide),
          mapGet_insert_ne _ _ _ _ (by decide), mapGet_insert_self]
    · dsimp only
      by_cases hv : mapGet (mapInsert (mapInsert resp.Headers "Content-Encoding" "gzip")
          "Content-Length" (toString (compress resp.Body).length)) "Vary" ≠ ""
      · rw [if_pos hv, mapGet_insert_ne _ _ _ _ (by decide), mapGet_insert_self]
      · rw [if_neg hv, mapGet_insert_ne _ _ _ _ (by decide), mapGet_insert_self]
  · intro hlen
    simp [GzipMiddleware, hAE, hnext, hCE, hct, hlen]

theorem c4_witness :
    (∃ resp2, GzipMiddleware gzC (fun _ => .ok respBigW) reqGzW = .ok resp2 ∧
      resp2.Body = gzC respBigW.Body ∧
      gunzC resp2.Body = respBigW.Body ∧
      mapGet resp2.Headers "Content-Encoding" = "gzip" ∧
      mapGet resp2.Headers "Content-Length" = toString (gzC respBigW.Body).length) ∧
    GzipMiddleware gzC (fun _ => .ok respSmallW) reqGzW = .ok respSmallW :=
  ⟨(c4_gzip_threshold_and_roundtrip gzC gunzC (fun _ => rfl) (fun _ => .ok respBigW) reqGzW
      respBigW (by decide) rfl rfl (by decide)).1 (by simp [respBigW]),
   (c4_gzip_threshold_and_roundtrip gzC gunzC (fun _ => rfl) (fun _ => .ok respSmallW) reqGzW
      respSmallW (by decide) rfl rfl (by decide)).2 (by simp [respSmallW])⟩

theorem pipeline_method_insensitive (compress : List Nat → List Nat) (h : HandlerFunc)
    (reqG : Request) (hsame : h { reqG with Method := "HEAD" } = h reqG) :
    buildPipeline (serverMiddlewares compress) h { reqG with Method := "HEAD" } =
      buildPipeline (serverMiddlewares compress) h reqG := by
  simp only [buildPipeline, serverMiddlewares, List.foldr, BaseMiddleware, LoggingMiddleware,
    GzipMiddleware, hsame]

/-- C5: a HEAD request that matches the same route as a GET request, whose
handler treats the two alike (as the file handler does, ignoring the
method), produces a response with the same status code, status text and
headers — including the Content-Length describing the GET body — while its
in-memory body is emptied and its streaming reader is closed and cleared. -/
theorem c5_head_get_parity (compress : List Nat → List Nat)
    (router : HTTPRouter HandlerFunc) (reqG : Request) (h : HandlerFunc) (resp : Response)
    (hG : reqG.Method = "GET")
    (hmatch : router.Match reqG.Path = some h)
    (hsame : h { reqG with Method := "HEAD" } = h reqG)
    (hok : buildPipeline (serverMiddlewares compress) h reqG = .ok resp) :
    (handleRequest compress router { reqG with Method := "HEAD" }).StatusCode =
      (handleRequest compress router reqG).StatusCode ∧
    (handleRequest compress router { reqG with Method := "HEAD" }).StatusText =
      (handleRequest compress router reqG).StatusText ∧
    (handleRequest compress router { reqG with Method := "HEAD" }).Headers =
      (handleRequest compress router reqG).Headers ∧
    (handleRequest compress router { reqG with Method := "HEAD" }).Body = [] ∧
    (handleRequest compress router { reqG with Method := "HEAD" }).Reader = none := by
  have hpipe := pipeline_method_insensitive compress h reqG hsame
  have hrG : handleRequest compress router reqG = resp := by
    simp [handleRequest, hG, hmatch, hok]
  have hrH : handleRequest compress router { reqG with Method := "HEAD" } =
      { resp with Body := [], Reader := none } := by
    simp [handleRequest, hmatch, hpipe, hok]
  rw [hrG, hrH]
  exact ⟨rfl, rfl, rfl, rfl, rfl⟩

theorem c5_witness :
    (handleRequest id routerW { reqGetW with Method := "HEAD" }).StatusCode =
      (handleRequest id routerW reqGetW).StatusCode ∧
    (handleRequest id routerW { reqGetW with Method := "HEAD" }).StatusText =
      (handleRequest id routerW reqGetW).StatusText ∧
    (handleRequest id routerW { reqGetW with Method := "HEAD" }).Headers =
      (handleRequest id routerW reqGetW).Headers ∧
    (handleRequest id routerW { reqGetW with Method := "HEAD" }).Body = [] ∧
    (handleRequest id routerW { reqGetW with Method := "HEAD" }).Reader = none :=
  c5_head_get_parity id routerW reqGetW handlerW respPipeW rfl rfl rfl rfl
